import Mathlib

/-!
# bbm/bsdfmodel.h : printing of bsdfmodels and the argument-forwarding facade

A shallow embedding of `include/bbm/bsdfmodel.h`:

* `bbm.operator_shl` embeds the stream-insertion operator `operator<<` for bsdfmodels;
* `bbm.detail.DefBsdfAll`, `bbm.detail.DefUnitRad`, `bbm.detail.DefTrue` embed the three
  predefined default arguments;
* the namespace `bbm.BBM_BSDF_FORWARD` embeds the forwarding block: the four argument descriptor
  lists `eval_args`, `sample_args`, `pdf_args`, `reflectance_args` and the four member functions
  `eval`, `sample`, `pdf`, `reflectance` that the block generates.

The header relies on parts of the framework that it only includes: the named-argument module
(`bbm::arg`, `ArgDef`, `BBM_FORWARD_CPP_ARGS_CONST`), the enumerations `bsdf_flag` and `unit_t`,
and the capability tests `has_toString` and `reflection::supported`.  The named-argument module
and the enumerations are modelled from the spec, each definition marked so in its documentation;
the capability tests are parameters of the printing operator.
-/

set_option autoImplicit false

namespace bbm

/-! ## Printing -/

/-- A model without state, as in `Toy{}`. -/
structure Toy where
deriving DecidableEq, Repr

/-- Modelled from the spec: the enumeration `bbm::unit_t` of radiometric units, declared in
`bbm/unit.h`, which is not part of this header.  The documentation at the top of the header
names its two values: `Radiance`, the regular bsdf, and `Importance`, the adjoint bsdf. -/
inductive unit_t where
  | Radiance
  | Importance
deriving DecidableEq, Repr

/-- Modelled from the spec: the enumeration `bbm::bsdf_flag` selecting the lobes of a bsdf that
take part, declared outside this header.  The spec describes it as a set of lobes ("e.g., diffuse
+ specular") with the distinguished value `All` that selects every lobe. -/
inductive bsdf_flag where
  | None
  | Diffuse
  | Specular
  | All
deriving DecidableEq, Repr

/-- Modelled from the spec: the configuration's type `BsdfFlag` (`bbm/config.h` is not part of
this header), here the scalar `bsdf_flag`. -/
abbrev BsdfFlag := bsdf_flag

/-- Modelled from the spec: the configuration's type `Mask` (`bbm/config.h` is not part of this
header), here the scalar `bool`; `true` enables every lane. -/
abbrev Mask := Bool

/-- Modelled from the spec: the macro `ArgDef(value)` of `concepts/macro.h`, which is not part
of this header: a type that carries the compile-time constant `value`, to be used as the default
of an argument; resolving the default yields `value`. -/
structure ArgDef (α : Type) where
  value : α
deriving DecidableEq, Repr

namespace detail

/-- The default `using DefBsdfAll = ArgDef(bbm::bsdf_flag::All);`. -/
def DefBsdfAll : ArgDef bsdf_flag := ⟨bsdf_flag.All⟩

/-- The default `using DefUnitRad = ArgDef(bbm::unit_t::Radiance);`. -/
def DefUnitRad : ArgDef unit_t := ⟨unit_t.Radiance⟩

/-- The default `using DefTrue = ArgDef(true);`. -/
def DefTrue : ArgDef Bool := ⟨true⟩

end detail

/-- The parameter types that occur in the descriptors of `BBM_BSDF_FORWARD`. -/
inductive ArgType where
  /-- The type `const Vec3d&`. -/
  | Vec3d
  /-- The type `const Vec2d&`. -/
  | Vec2d
  | BsdfFlag
  | unit_t
  | Mask
deriving DecidableEq, Repr

/-- An argument value of one of the parameter types.  `Vec3d` and `Vec2d` are the configuration's
vector types; the facade never looks inside them. -/
inductive Val (Vec3d Vec2d : Type) where
  | vec3 (v : Vec3d)
  | vec2 (v : Vec2d)
  | flag (c : BsdfFlag)
  | unit (u : unit_t)
  | mask (m : Mask)
deriving DecidableEq, Repr

/-- The parameter type a value belongs to. -/
def Val.type {Vec3d Vec2d : Type} : Val Vec3d Vec2d → ArgType
  | .vec3 _ => .Vec3d
  | .vec2 _ => .Vec2d
  | .flag _ => .BsdfFlag
  | .unit _ => .unit_t
  | .mask _ => .Mask

/-- Modelled from the spec: the descriptor `bbm::arg<TYPE, "name", DEFAULT>` of the
named-argument module, which is not part of this header: a triple of parameter type, parameter
name and optional default; a parameter without default is required. -/
structure arg (Vec3d Vec2d : Type) where
  type : ArgType
  name : String
  dflt : Option (Val Vec3d Vec2d)
deriving DecidableEq, Repr

/-- Modelled from the spec: a call of a generated member function, which accepts positional and
named arguments: the arguments passed by position, in order, and the arguments passed by name,
in the order the caller wrote them. -/
structure Call (Vec3d Vec2d : Type) where
  positional : List (Val Vec3d Vec2d)
  named : List (String × Val Vec3d Vec2d)
deriving DecidableEq, Repr

/-- Modelled from the spec: the diagnostics of argument binding, which the named-argument module
reports when it rejects a call. -/
inductive BindError where
  /-- A named argument whose name the operation does not declare; the name is quoted. -/
  | unknownName (name : String)
  /-- A parameter that the call supplies more than once. -/
  | duplicate (name : String)
  /-- A required parameter that the call does not supply. -/
  | missing (name : String)
  /-- A value that is not of the declared type of the parameter it is passed for. -/
  | typeMismatch (name : String)
  /-- More positional arguments than parameters. -/
  | tooManyPositional
  /-- The populated argument list does not fit the positional signature of the target. -/
  | signature
deriving DecidableEq, Repr

section Forwarding

variable {Vec3d Vec2d : Type}

/-- The declared parameter names of a descriptor list, in declaration order. -/
def names (args : List (arg Vec3d Vec2d)) : List String :=
  args.map arg.name

/-- Modelled from the spec: the check of the named-argument module for a name the operation does
not recognise: the first named argument of a call whose name is not declared, if any. -/
def unknownName? (args : List (arg Vec3d Vec2d)) (named : List (String × Val Vec3d Vec2d)) :
    Option String :=
  (named.map Prod.fst).find? (fun n => decide (n ∉ names args))

/-- Modelled from the spec: the check of the named-argument module that no name is written
twice: the first name that occurs again later in the list, if any. -/
def duplicated? : List String → Option String
  | [] => none
  | n :: ns => if n ∈ ns then some n else duplicated? ns

/-- Modelled from the spec: the materialisation of the fully populated argument list.  Parameters
are filled in declaration order: first from the positional arguments, then, for each remaining
parameter, from the named argument of that name, else from the parameter's default. -/
def bindArgs (named : List (String × Val Vec3d Vec2d)) :
    List (arg Vec3d Vec2d) → List (Val Vec3d Vec2d) → Except BindError (List (Val Vec3d Vec2d))
  | [], [] => .ok []
  | [], _ :: _ => .error .tooManyPositional
  | a :: rest, v :: vs =>
    if (named.lookup a.name).isSome then .error (.duplicate a.name)
    else if v.type ≠ a.type then .error (.typeMismatch a.name)
    else (bindArgs named rest vs).map (fun out => v :: out)
  | a :: rest, [] =>
    match named.lookup a.name with
    | some v =>
      if v.type ≠ a.type then .error (.typeMismatch a.name)
      else (bindArgs named rest []).map (fun out => v :: out)
    | none =>
      match a.dflt with
      | some d => (bindArgs named rest []).map (fun out => d :: out)
      | none => .error (.missing a.name)

/-- Modelled from the spec: argument binding of the named-argument module, which is not part of
this header.  A call that names a parameter the operation does not declare is rejected with the
name quoted; otherwise each parameter is supplied at most once and the argument list is
materialised by `bindArgs`. -/
def bind (args : List (arg Vec3d Vec2d)) (call : Call Vec3d Vec2d) :
    Except BindError (List (Val Vec3d Vec2d)) :=
  match unknownName? args call.named with
  | some n => .error (.unknownName n)
  | none =>
    match duplicated? (call.named.map Prod.fst) with
    | some n => .error (.duplicate n)
    | none => bindArgs call.named args call.positional

/-- Modelled from the spec: the macro `BBM_FORWARD_CPP_ARGS_CONST(name, args...)` of the
named-argument module, which is not part of this header.  It generates the member function
`name` that accepts positional and named arguments, binds them against the descriptors `args`
and forwards the fully populated argument list to the positional function `target` of the same
name, returning its result.  `target` is `none` on an argument list that does not fit its
signature. -/
def BBM_FORWARD_CPP_ARGS_CONST {κ : Type} (args : List (arg Vec3d Vec2d))
    (target : List (Val Vec3d Vec2d) → Option κ) (call : Call Vec3d Vec2d) :
    Except BindError κ :=
  match bind args call with
  | .error e => .error e
  | .ok values =>
    match target values with
    | some result => .ok result
    | none => .error .signature

/-- Modelled from the spec: the four functions a bsdfmodel implements (the concept
`bbm::concepts::bsdfmodel` is not part of this header), with the positional signatures the
forwarding block forwards to.  The result types are arbitrary. -/
structure Implementation (Vec3d Vec2d Spectrum BsdfSample Value : Type) where
  eval : Vec3d → Vec3d → BsdfFlag → unit_t → Mask → Spectrum
  sample : Vec3d → Vec2d → BsdfFlag → unit_t → Mask → BsdfSample
  pdf : Vec3d → Vec3d → BsdfFlag → unit_t → Mask → Value
  reflectance : Vec3d → BsdfFlag → unit_t → Mask → Spectrum

/-- Modelled from the spec: the positional call, made by the generated member, of a function
that takes `(Vec3d, Vec3d, BsdfFlag, unit_t, Mask)`. -/
def call_V3_V3 {κ : Type} (f : Vec3d → Vec3d → BsdfFlag → unit_t → Mask → κ) :
    List (Val Vec3d Vec2d) → Option κ
  | [.vec3 a, .vec3 b, .flag c, .unit u, .mask m] => some (f a b c u m)
  | _ => none

/-- Modelled from the spec: the positional call, made by the generated member, of a function
that takes `(Vec3d, Vec2d, BsdfFlag, unit_t, Mask)`. -/
def call_V3_V2 {κ : Type} (f : Vec3d → Vec2d → BsdfFlag → unit_t → Mask → κ) :
    List (Val Vec3d Vec2d) → Option κ
  | [.vec3 a, .vec2 b, .flag c, .unit u, .mask m] => some (f a b c u m)
  | _ => none

/-- Modelled from the spec: the positional call, made by the generated member, of a function
that takes `(Vec3d, BsdfFlag, unit_t, Mask)`. -/
def call_V3 {κ : Type} (f : Vec3d → BsdfFlag → unit_t → Mask → κ) :
    List (Val Vec3d Vec2d) → Option κ
  | [.vec3 a, .flag c, .unit u, .mask m] => some (f a c u m)
  | _ => none

end Forwarding

section ForwardingSpec

variable {Vec3d Vec2d : Type}

/-- The named arguments `component=c, unit=u, mask=m` of a call that supplies the subset of the
optional arguments given by the `some` entries. -/
def optionals (c : Option BsdfFlag) (u : Option unit_t) (m : Option Mask) :
    List (String × Val Vec3d Vec2d) :=
  (c.map (fun c => ("component", Val.flag c))).toList ++
    ((u.map (fun u => ("unit", Val.unit u))).toList ++
      (m.map (fun m => ("mask", Val.mask m))).toList)

/-- The optional tail of a fully positional call in which each omitted optional argument is
replaced by its default: `component = bsdf_flag::All`, `unit = unit_t::Radiance`,
`mask = true`. -/
def defaulted (c : Option BsdfFlag) (u : Option unit_t) (m : Option Mask) :
    List (Val Vec3d Vec2d) :=
  [.flag (c.getD bsdf_flag.All), .unit (u.getD unit_t.Radiance), .mask (m.getD true)]

/-- A well-formed call of an operation: no more positional arguments than parameters, no
parameter supplied twice (neither by two named arguments nor by position and by name), and each
value of the declared type of the parameter it is passed for. -/
structure Admissible (args : List (arg Vec3d Vec2d)) (call : Call Vec3d Vec2d) : Prop where
  arity : call.positional.length ≤ args.length
  once : (call.named.map Prod.fst).Nodup
  notTwice : ∀ a ∈ args.take call.positional.length, a.name ∉ call.named.map Prod.fst
  positionalTyped : ∀ p ∈ List.zip call.positional args, p.1.type = p.2.type
  namedTyped : ∀ a ∈ args, ∀ v, (a.name, v) ∈ call.named → v.type = a.type

/-- The call uses only declared names: every named argument names a parameter of the
operation. -/
def DeclaredOnly (args : List (arg Vec3d Vec2d)) (call : Call Vec3d Vec2d) : Prop :=
  ∀ n ∈ call.named.map Prod.fst, n ∈ names args

/-- All required arguments are present: every parameter without default that no positional
argument fills is supplied by name. -/
def RequiredPresent (args : List (arg Vec3d Vec2d)) (call : Call Vec3d Vec2d) : Prop :=
  ∀ a ∈ args.drop call.positional.length, a.dflt = none → a.name ∈ call.named.map Prod.fst

end ForwardingSpec

/-! ### The block `BBM_BSDF_FORWARD`

The descriptor lists of its four invocations of `BBM_FORWARD_CPP_ARGS_CONST`, transcribed from
the header, and the four member functions they generate. -/

namespace BBM_BSDF_FORWARD

variable {Vec3d Vec2d Spectrum BsdfSample Value : Type}

/-- Descriptors of `eval`. -/
def eval_args : List (arg Vec3d Vec2d) :=
  [ ⟨.Vec3d, "in", none⟩,
    ⟨.Vec3d, "out", none⟩,
    ⟨.BsdfFlag, "component", some (.flag detail.DefBsdfAll.value)⟩,
    ⟨.unit_t, "unit", some (.unit detail.DefUnitRad.value)⟩,
    ⟨.Mask, "mask", some (.mask detail.DefTrue.value)⟩ ]

/-- Descriptors of `sample`. -/
def sample_args : List (arg Vec3d Vec2d) :=
  [ ⟨.Vec3d, "out", none⟩,
    ⟨.Vec2d, "xi", none⟩,
    ⟨.BsdfFlag, "component", some (.flag detail.DefBsdfAll.value)⟩,
    ⟨.unit_t, "unit", some (.unit detail.DefUnitRad.value)⟩,
    ⟨.Mask, "mask", some (.mask detail.DefTrue.value)⟩ ]

/-- Descriptors of `pdf`. -/
def pdf_args : List (arg Vec3d Vec2d) :=
  [ ⟨.Vec3d, "in", none⟩,
    ⟨.Vec3d, "out", none⟩,
    ⟨.BsdfFlag, "component", some (.flag detail.DefBsdfAll.value)⟩,
    ⟨.unit_t, "unit", some (.unit detail.DefUnitRad.value)⟩,
    ⟨.Mask, "mask", some (.mask detail.DefTrue.value)⟩ ]

/-- Descriptors of `reflectance`. -/
def reflectance_args : List (arg Vec3d Vec2d) :=
  [ ⟨.Vec3d, "out", none⟩,
    ⟨.BsdfFlag, "component", some (.flag detail.DefBsdfAll.value)⟩,
    ⟨.unit_t, "unit", some (.unit detail.DefUnitRad.value)⟩,
    ⟨.Mask, "mask", some (.mask detail.DefTrue.value)⟩ ]

/-- The generated member `eval`. -/
def eval (M : Implementation Vec3d Vec2d Spectrum BsdfSample Value) (call : Call Vec3d Vec2d) :
    Except BindError Spectrum :=
  BBM_FORWARD_CPP_ARGS_CONST eval_args (call_V3_V3 M.eval) call

/-- The generated member `sample`. -/
def sample (M : Implementation Vec3d Vec2d Spectrum BsdfSample Value)
    (call : Call Vec3d Vec2d) : Except BindError BsdfSample :=
  BBM_FORWARD_CPP_ARGS_CONST sample_args (call_V3_V2 M.sample) call

/-- The generated member `pdf`. -/
def pdf (M : Implementation Vec3d Vec2d Spectrum BsdfSample Value) (call : Call Vec3d Vec2d) :
    Except BindError Value :=
  BBM_FORWARD_CPP_ARGS_CONST pdf_args (call_V3_V3 M.pdf) call

/-- The generated member `reflectance`. -/
def reflectance (M : Implementation Vec3d Vec2d Spectrum BsdfSample Value)
    (call : Call Vec3d Vec2d) : Except BindError Spectrum :=
  BBM_FORWARD_CPP_ARGS_CONST reflectance_args (call_V3 M.reflectance) call

end BBM_BSDF_FORWARD

/-! ### An example implementation -/

/-- Vector type of the examples: three integer coordinates. -/
abbrev Toy.Vec3d := Int × Int × Int

/-- Sample type of the examples: two rational coordinates. -/
abbrev Toy.Vec2d := Rat × Rat

/-- Result of the example implementation: a computation on an invocation counter that returns
the arguments the implementation received and counts the invocation. -/
abbrev Toy.Result := Nat → List (Val Toy.Vec3d Toy.Vec2d) × Nat

/-- An implementation whose four functions return the arguments they receive and count their
invocations. -/
def Toy.impl : Implementation Toy.Vec3d Toy.Vec2d Toy.Result Toy.Result Toy.Result :=
  { eval := fun i o c u m n => ([.vec3 i, .vec3 o, .flag c, .unit u, .mask m], n + 1)
    sample := fun o xi c u m n => ([.vec3 o, .vec2 xi, .flag c, .unit u, .mask m], n + 1)
    pdf := fun i o c u m n => ([.vec3 i, .vec3 o, .flag c, .unit u, .mask m], n + 1)
    reflectance := fun o c u m n => ([.vec3 o, .flag c, .unit u, .mask m], n + 1) }

/-! ### Theorems on printing -/

section BindingLemmas

variable {Vec3d Vec2d : Type}

theorem duplicated?_eq_none_iff (l : List String) : duplicated? l = none ↔ l.Nodup := by
  induction l with
  | nil => simp [duplicated?]
  | cons n ns ih =>
    by_cases h : n ∈ ns
    · simp [duplicated?, h]
    · simp [duplicated?, h, ih]

theorem lookup_eq_none_iff' {β : Type} (named : List (String × β)) (k : String) :
    named.lookup k = none ↔ k ∉ named.map Prod.fst := by
  induction named with
  | nil => simp
  | cons p ps ih =>
    obtain ⟨k', v⟩ := p
    by_cases h : k = k'
    · subst h; simp [List.lookup]
    · have hb : (k == k') = false := by simpa using h
      simp [List.lookup, hb, ih, h]

theorem mem_of_lookup_eq_some {β : Type} {named : List (String × β)} {k : String} {v : β}
    (h : named.lookup k = some v) : (k, v) ∈ named := by
  induction named with
  | nil => simp at h
  | cons p ps ih =>
    obtain ⟨k', v'⟩ := p
    by_cases hk : k = k'
    · subst hk
      simp [List.lookup] at h
      simp [h]
    · have hb : (k == k') = false := by simpa using hk
      simp [List.lookup, hb] at h
      exact List.mem_cons_of_mem _ (ih h)

theorem lookup_eq_some_of_mem {β : Type} {named : List (String × β)} {k : String} {v : β}
    (nd : (named.map Prod.fst).Nodup) (h : (k, v) ∈ named) : named.lookup k = some v := by
  induction named with
  | nil => simp at h
  | cons p ps ih =>
    obtain ⟨k', v'⟩ := p
    simp only [List.map_cons, List.nodup_cons] at nd
    rcases List.mem_cons.1 h with heq | hmem
    · cases heq
      simp [List.lookup]
    · have hk : k ≠ k' := by
        rintro rfl
        exact nd.1 (List.mem_map.2 ⟨(k, v), hmem, rfl⟩)
      have hb : (k == k') = false := by simpa using hk
      simp [List.lookup, hb, ih nd.2 hmem]

theorem lookup_eq_of_perm {β : Type} {n₁ n₂ : List (String × β)} (h : n₁.Perm n₂)
    (nd : (n₁.map Prod.fst).Nodup) (k : String) : n₁.lookup k = n₂.lookup k := by
  have nd₂ : (n₂.map Prod.fst).Nodup := ((h.map Prod.fst).nodup_iff).1 nd
  cases h₁ : n₁.lookup k with
  | some v =>
    exact (lookup_eq_some_of_mem nd₂ (h.mem_iff.1 (mem_of_lookup_eq_some h₁))).symm
  | none =>
    have hk : k ∉ n₂.map Prod.fst := by
      intro hmem
      exact (lookup_eq_none_iff' n₁ k).1 h₁ (((h.map Prod.fst).mem_iff).2 hmem)
    exact ((lookup_eq_none_iff' n₂ k).2 hk).symm

/-- The populated argument list depends on the named arguments only through what they supply
for the declared parameters. -/
theorem bindArgs_congr {n₁ n₂ : List (String × Val Vec3d Vec2d)}
    (args : List (arg Vec3d Vec2d)) (pos : List (Val Vec3d Vec2d))
    (h : ∀ a ∈ args, n₁.lookup a.name = n₂.lookup a.name) :
    bindArgs n₁ args pos = bindArgs n₂ args pos := by
  induction args generalizing pos with
  | nil => cases pos <;> rfl
  | cons a rest ih =>
    have ha := h a (List.mem_cons_self _ _)
    have hrest : ∀ b ∈ rest, n₁.lookup b.name = n₂.lookup b.name :=
      fun b hb => h b (List.mem_cons_of_mem _ hb)
    cases pos with
    | nil => simp only [bindArgs, ha, ih [] hrest]
    | cons v vs => simp only [bindArgs, ha, ih vs hrest]

theorem unknownName?_eq_none_iff (args : List (arg Vec3d Vec2d))
    (named : List (String × Val Vec3d Vec2d)) :
    unknownName? args named = none ↔ ∀ n ∈ named.map Prod.fst, n ∈ names args := by
  simp [unknownName?, List.find?_eq_none]

theorem unknownName?_spec {args : List (arg Vec3d Vec2d)}
    {named : List (String × Val Vec3d Vec2d)} {n : String}
    (h : unknownName? args named = some n) : n ∈ named.map Prod.fst ∧ n ∉ names args := by
  unfold unknownName? at h
  have h1 := List.find?_some h
  have h2 := List.mem_of_find?_eq_some h
  exact ⟨h2, by simpa using h1⟩

/-- Binding does not depend on the order in which the named arguments are written. -/
theorem bind_perm {args : List (arg Vec3d Vec2d)} {pos : List (Val Vec3d Vec2d)}
    {n₁ n₂ : List (String × Val Vec3d Vec2d)} {values : List (Val Vec3d Vec2d)}
    (h : n₁.Perm n₂) (hb : bind args ⟨pos, n₁⟩ = .ok values) :
    bind args ⟨pos, n₂⟩ = .ok values := by
  unfold bind at hb ⊢
  simp only at hb ⊢
  cases hu : unknownName? args n₁ with
  | some n => rw [hu] at hb; cases hb
  | none =>
    rw [hu] at hb
    have hu₂ : unknownName? args n₂ = none := by
      rw [unknownName?_eq_none_iff] at hu ⊢
      intro n hn
      exact hu n (((h.map Prod.fst).mem_iff).2 hn)
    cases hd : duplicated? (n₁.map Prod.fst) with
    | some n => rw [hd] at hb; cases hb
    | none =>
      rw [hd] at hb
      have nd : (n₁.map Prod.fst).Nodup := (duplicated?_eq_none_iff _).1 hd
      have hd₂ : duplicated? (n₂.map Prod.fst) = none :=
        (duplicated?_eq_none_iff _).2 (((h.map Prod.fst).nodup_iff).1 nd)
      simp only [hu₂, hd₂]
      simp only at hb
      rw [← hb]
      exact (bindArgs_congr args pos (fun a _ => lookup_eq_of_perm h nd a.name)).symm

/-- The result of a generated member does not depend on the order in which the named arguments
are written. -/
theorem forward_perm {κ : Type} {args : List (arg Vec3d Vec2d)}
    {target : List (Val Vec3d Vec2d) → Option κ} {pos : List (Val Vec3d Vec2d)}
    {n₁ n₂ : List (String × Val Vec3d Vec2d)} {r : κ}
    (h : n₁.Perm n₂) (hb : BBM_FORWARD_CPP_ARGS_CONST args target ⟨pos, n₁⟩ = .ok r) :
    BBM_FORWARD_CPP_ARGS_CONST args target ⟨pos, n₂⟩ = .ok r := by
  unfold BBM_FORWARD_CPP_ARGS_CONST at hb ⊢
  cases hv : bind args ⟨pos, n₁⟩ with
  | error e => rw [hv] at hb; cases hb
  | ok values =>
    rw [hv] at hb
    rw [bind_perm h hv]
    exact hb

theorem except_map_eq_ok {ε α β : Type} {f : α → β} {x : Except ε α} {y : β}
    (h : x.map f = .ok y) : ∃ a, x = .ok a ∧ y = f a := by
  cases x with
  | error e => simp [Except.map] at h
  | ok a =>
    simp only [Except.map, Except.ok.injEq] at h
    exact ⟨a, rfl, h.symm⟩

theorem forward_ok_iff {κ : Type} {args : List (arg Vec3d Vec2d)}
    {target : List (Val Vec3d Vec2d) → Option κ} {call : Call Vec3d Vec2d} {r : κ} :
    BBM_FORWARD_CPP_ARGS_CONST args target call = .ok r ↔
      ∃ values, bind args call = .ok values ∧ target values = some r := by
  unfold BBM_FORWARD_CPP_ARGS_CONST
  cases hb : bind args call with
  | error e => simp
  | ok values =>
    cases ht : target values with
    | none => simp [ht]
    | some r' => simp [ht]

/-- The populated argument list has the declared parameter types. -/
theorem bindArgs_types {named : List (String × Val Vec3d Vec2d)}
    (args : List (arg Vec3d Vec2d)) (pos values : List (Val Vec3d Vec2d))
    (hd : ∀ a ∈ args, ∀ d, a.dflt = some d → d.type = a.type)
    (h : bindArgs named args pos = .ok values) :
    values.map Val.type = args.map arg.type := by
  induction args generalizing pos values with
  | nil =>
    cases pos with
    | nil => simp only [bindArgs, Except.ok.injEq] at h; subst h; rfl
    | cons v vs => simp [bindArgs] at h
  | cons a rest ih =>
    have hd' : ∀ b ∈ rest, ∀ d, b.dflt = some d → d.type = b.type :=
      fun b hb => hd b (List.mem_cons_of_mem _ hb)
    cases pos with
    | cons v vs =>
      simp only [bindArgs] at h
      split at h
      · cases h
      · split at h
        · cases h
        · rename_i hty
          obtain ⟨out, hout, rfl⟩ := except_map_eq_ok h
          simp [not_not.1 hty, ih vs out hd' hout]
    | nil =>
      simp only [bindArgs] at h
      split at h
      · split at h
        · cases h
        · rename_i hty
          obtain ⟨out, hout, rfl⟩ := except_map_eq_ok h
          simp [not_not.1 hty, ih [] out hd' hout]
      · split at h
        · rename_i d hdflt
          obtain ⟨out, hout, rfl⟩ := except_map_eq_ok h
          simp [hd a (List.mem_cons_self _ _) d hdflt, ih [] out hd' hout]
        · cases h

/-- Completeness of binding: a well-formed list of arguments that supplies every required
parameter is populated. -/
theorem bindArgs_complete {named : List (String × Val Vec3d Vec2d)}
    (args : List (arg Vec3d Vec2d)) (pos : List (Val Vec3d Vec2d))
    (arity : pos.length ≤ args.length)
    (notTwice : ∀ a ∈ args.take pos.length, a.name ∉ named.map Prod.fst)
    (positionalTyped : ∀ p ∈ List.zip pos args, p.1.type = p.2.type)
    (namedTyped : ∀ a ∈ args, ∀ v, (a.name, v) ∈ named → v.type = a.type)
    (required : ∀ a ∈ args.drop pos.length, a.dflt = none → a.name ∈ named.map Prod.fst) :
    ∃ values, bindArgs named args pos = .ok values := by
  induction args generalizing pos with
  | nil =>
    cases pos with
    | nil => exact ⟨[], rfl⟩
    | cons v vs => simp at arity
  | cons a rest ih =>
    have namedTyped' : ∀ b ∈ rest, ∀ v, (b.name, v) ∈ named → v.type = b.type :=
      fun b hb => namedTyped b (List.mem_cons_of_mem _ hb)
    cases pos with
    | cons v vs =>
      have hkey : named.lookup a.name = none :=
        (lookup_eq_none_iff' _ _).2 (notTwice a (by simp))
      have hty : v.type = a.type := positionalTyped (v, a) (by simp)
      obtain ⟨out, hout⟩ := ih vs (by simpa using arity)
        (fun b hb => notTwice b (by simp [hb]))
        (fun p hp => positionalTyped p (by simp [hp]))
        namedTyped' (fun b hb => required b (by simpa using hb))
      exact ⟨v :: out, by simp [bindArgs, hkey, hty, hout, Except.map]⟩
    | nil =>
      obtain ⟨out, hout⟩ := ih [] (Nat.zero_le _) (fun b hb => by simp at hb)
        (fun p hp => by simp at hp) namedTyped'
        (fun b hb => required b (by
          simp only [List.length_nil, List.drop_zero] at hb ⊢
          exact List.mem_cons_of_mem _ hb))
      cases hl : named.lookup a.name with
      | some v =>
        have hty : v.type = a.type :=
          namedTyped a (List.mem_cons_self _ _) v (mem_of_lookup_eq_some hl)
        exact ⟨v :: out, by simp [bindArgs, hl, hty, hout, Except.map]⟩
      | none =>
        cases hdf : a.dflt with
        | some d => exact ⟨d :: out, by simp [bindArgs, hl, hdf, hout, Except.map]⟩
        | none =>
          exact absurd (required a (by simp) hdf) ((lookup_eq_none_iff' _ _).1 hl)

theorem bind_complete {args : List (arg Vec3d Vec2d)} {call : Call Vec3d Vec2d}
    (hd : ∀ a ∈ args, ∀ d, a.dflt = some d → d.type = a.type)
    (wf : Admissible args call) (declared : DeclaredOnly args call)
    (required : RequiredPresent args call) :
    ∃ values, bind args call = .ok values ∧ values.map Val.type = args.map arg.type := by
  obtain ⟨values, hv⟩ := @bindArgs_complete _ _ call.named args call.positional
    wf.arity wf.notTwice wf.positionalTyped wf.namedTyped required
  refine ⟨values, ?_, bindArgs_types args _ _ hd hv⟩
  unfold bind
  rw [(unknownName?_eq_none_iff args call.named).2 declared,
    (duplicated?_eq_none_iff _).2 wf.once]
  exact hv

/-- A call with a named argument whose name is not declared is rejected, and the diagnostic
quotes an undeclared name of the call. -/
theorem forward_unknown {κ : Type} (args : List (arg Vec3d Vec2d))
    (target : List (Val Vec3d Vec2d) → Option κ) (call : Call Vec3d Vec2d)
    (n : String) (hn : n ∈ call.named.map Prod.fst) (hu : n ∉ names args) :
    ∃ n', BBM_FORWARD_CPP_ARGS_CONST args target call = .error (.unknownName n') ∧
      n' ∈ call.named.map Prod.fst ∧ n' ∉ names args := by
  cases h : unknownName? args call.named with
  | none => exact absurd ((unknownName?_eq_none_iff _ _).1 h n hn) hu
  | some n' =>
    refine ⟨n', ?_, unknownName?_spec h⟩
    simp [BBM_FORWARD_CPP_ARGS_CONST, bind, h]

theorem type_eq_Vec3d {v : Val Vec3d Vec2d} (h : v.type = .Vec3d) : ∃ a, v = .vec3 a := by
  cases v <;> simp [Val.type] at h
  exact ⟨_, rfl⟩

theorem type_eq_Vec2d {v : Val Vec3d Vec2d} (h : v.type = .Vec2d) : ∃ a, v = .vec2 a := by
  cases v <;> simp [Val.type] at h
  exact ⟨_, rfl⟩

theorem type_eq_BsdfFlag {v : Val Vec3d Vec2d} (h : v.type = .BsdfFlag) :
    ∃ c, v = .flag c := by
  cases v <;> simp [Val.type] at h
  exact ⟨_, rfl⟩

theorem type_eq_unit_t {v : Val Vec3d Vec2d} (h : v.type = .unit_t) : ∃ u, v = .unit u := by
  cases v <;> simp [Val.type] at h
  exact ⟨_, rfl⟩

theorem type_eq_Mask {v : Val Vec3d Vec2d} (h : v.type = .Mask) : ∃ m, v = .mask m := by
  cases v <;> simp [Val.type] at h
  exact ⟨_, rfl⟩

theorem tail_of_types {values : List (Val Vec3d Vec2d)}
    (h : values.map Val.type = [.BsdfFlag, .unit_t, .Mask]) :
    ∃ c u m, values = [.flag c, .unit u, .mask m] := by
  rcases values with _ | ⟨v₁, _ | ⟨v₂, _ | ⟨v₃, _ | ⟨v₄, rest⟩⟩⟩⟩ <;> simp at h
  obtain ⟨h₁, h₂, h₃⟩ := h
  obtain ⟨c, rfl⟩ := type_eq_BsdfFlag h₁
  obtain ⟨u, rfl⟩ := type_eq_unit_t h₂
  obtain ⟨m, rfl⟩ := type_eq_Mask h₃
  exact ⟨c, u, m, rfl⟩

theorem call_V3_V3_of_types {κ : Type} (f : Vec3d → Vec3d → BsdfFlag → unit_t → Mask → κ)
    {values : List (Val Vec3d Vec2d)}
    (h : values.map Val.type = [.Vec3d, .Vec3d, .BsdfFlag, .unit_t, .Mask]) :
    ∃ r, call_V3_V3 f values = some r := by
  rcases values with _ | ⟨v₁, _ | ⟨v₂, rest⟩⟩ <;> simp at h
  obtain ⟨h₁, h₂, h₃⟩ := h
  obtain ⟨a, rfl⟩ := type_eq_Vec3d h₁
  obtain ⟨b, rfl⟩ := type_eq_Vec3d h₂
  obtain ⟨c, u, m, rfl⟩ := tail_of_types (by simpa using h₃)
  exact ⟨_, rfl⟩

theorem call_V3_V2_of_types {κ : Type} (f : Vec3d → Vec2d → BsdfFlag → unit_t → Mask → κ)
    {values : List (Val Vec3d Vec2d)}
    (h : values.map Val.type = [.Vec3d, .Vec2d, .BsdfFlag, .unit_t, .Mask]) :
    ∃ r, call_V3_V2 f values = some r := by
  rcases values with _ | ⟨v₁, _ | ⟨v₂, rest⟩⟩ <;> simp at h
  obtain ⟨h₁, h₂, h₃⟩ := h
  obtain ⟨a, rfl⟩ := type_eq_Vec3d h₁
  obtain ⟨b, rfl⟩ := type_eq_Vec2d h₂
  obtain ⟨c, u, m, rfl⟩ := tail_of_types (by simpa using h₃)
  exact ⟨_, rfl⟩

theorem call_V3_of_types {κ : Type} (f : Vec3d → BsdfFlag → unit_t → Mask → κ)
    {values : List (Val Vec3d Vec2d)}
    (h : values.map Val.type = [.Vec3d, .BsdfFlag, .unit_t, .Mask]) :
    ∃ r, call_V3 f values = some r := by
  rcases values with _ | ⟨v₁, rest⟩ <;> simp at h
  obtain ⟨h₁, h₃⟩ := h
  obtain ⟨a, rfl⟩ := type_eq_Vec3d h₁
  obtain ⟨c, u, m, rfl⟩ := tail_of_types (by simpa using h₃)
  exact ⟨_, rfl⟩

end BindingLemmas

/-! ### Theorems on the facade -/

section FacadeTheorems

open BBM_BSDF_FORWARD

variable {Vec3d Vec2d Spectrum BsdfSample Value : Type}

/-- C3: for each of `eval`, `sample`, `pdf` and `reflectance`, for every choice of the required
arguments and every subset of the optional arguments `component`, `unit`, `mask` the caller
supplies by name (in any order, the empty subset included), the call returns what the fully
positional call returns in which each omitted optional argument is replaced by its default
`bsdf_flag::All`, `unit_t::Radiance`, `true`; this holds with the required arguments passed by
position and with all arguments passed by name, and the fully positional call returns the
result of the implementation on those arguments. -/
theorem facade_defaults (M : Implementation Vec3d Vec2d Spectrum BsdfSample Value)
    (d₁ d₂ : Vec3d) (xi : Vec2d) (c : Option BsdfFlag) (u : Option unit_t) (m : Option Mask)
    (named : List (String × Val Vec3d Vec2d)) (h : named.Perm (optionals c u m)) :
    (eval M ⟨[.vec3 d₁, .vec3 d₂], named⟩
        = eval M ⟨.vec3 d₁ :: .vec3 d₂ :: defaulted c u m, []⟩ ∧
      (∀ all, all.Perm (("in", .vec3 d₁) :: ("out", .vec3 d₂) :: named) →
        eval M ⟨[], all⟩ = eval M ⟨.vec3 d₁ :: .vec3 d₂ :: defaulted c u m, []⟩) ∧
      eval M ⟨.vec3 d₁ :: .vec3 d₂ :: defaulted c u m, []⟩
        = .ok (M.eval d₁ d₂ (c.getD .All) (u.getD .Radiance) (m.getD true))) ∧
    (sample M ⟨[.vec3 d₂, .vec2 xi], named⟩
        = sample M ⟨.vec3 d₂ :: .vec2 xi :: defaulted c u m, []⟩ ∧
      (∀ all, all.Perm (("out", .vec3 d₂) :: ("xi", .vec2 xi) :: named) →
        sample M ⟨[], all⟩ = sample M ⟨.vec3 d₂ :: .vec2 xi :: defaulted c u m, []⟩) ∧
      sample M ⟨.vec3 d₂ :: .vec2 xi :: defaulted c u m, []⟩
        = .ok (M.sample d₂ xi (c.getD .All) (u.getD .Radiance) (m.getD true))) ∧
    (pdf M ⟨[.vec3 d₁, .vec3 d₂], named⟩
        = pdf M ⟨.vec3 d₁ :: .vec3 d₂ :: defaulted c u m, []⟩ ∧
      (∀ all, all.Perm (("in", .vec3 d₁) :: ("out", .vec3 d₂) :: named) →
        pdf M ⟨[], all⟩ = pdf M ⟨.vec3 d₁ :: .vec3 d₂ :: defaulted c u m, []⟩) ∧
      pdf M ⟨.vec3 d₁ :: .vec3 d₂ :: defaulted c u m, []⟩
        = .ok (M.pdf d₁ d₂ (c.getD .All) (u.getD .Radiance) (m.getD true))) ∧
    (reflectance M ⟨[.vec3 d₂], named⟩
        = reflectance M ⟨.vec3 d₂ :: defaulted c u m, []⟩ ∧
      (∀ all, all.Perm (("out", .vec3 d₂) :: named) →
        reflectance M ⟨[], all⟩ = reflectance M ⟨.vec3 d₂ :: defaulted c u m, []⟩) ∧
      reflectance M ⟨.vec3 d₂ :: defaulted c u m, []⟩
        = .ok (M.reflectance d₂ (c.getD .All) (u.getD .Radiance) (m.getD true))) := by
  have e₀ : eval M ⟨.vec3 d₁ :: .vec3 d₂ :: defaulted c u m, []⟩
      = .ok (M.eval d₁ d₂ (c.getD .All) (u.getD .Radiance) (m.getD true)) := rfl
  have e₁ : eval M ⟨[.vec3 d₁, .vec3 d₂], optionals c u m⟩
      = .ok (M.eval d₁ d₂ (c.getD .All) (u.getD .Radiance) (m.getD true)) := by
    cases c <;> cases u <;> cases m <;> rfl
  have e₂ : eval M ⟨[], ("in", .vec3 d₁) :: ("out", .vec3 d₂) :: optionals c u m⟩
      = .ok (M.eval d₁ d₂ (c.getD .All) (u.getD .Radiance) (m.getD true)) := by
    cases c <;> cases u <;> cases m <;> rfl
  have s₀ : sample M ⟨.vec3 d₂ :: .vec2 xi :: defaulted c u m, []⟩
      = .ok (M.sample d₂ xi (c.getD .All) (u.getD .Radiance) (m.getD true)) := rfl
  have s₁ : sample M ⟨[.vec3 d₂, .vec2 xi], optionals c u m⟩
      = .ok (M.sample d₂ xi (c.getD .All) (u.getD .Radiance) (m.getD true)) := by
    cases c <;> cases u <;> cases m <;> rfl
  have s₂ : sample M ⟨[], ("out", .vec3 d₂) :: ("xi", .vec2 xi) :: optionals c u m⟩
      = .ok (M.sample d₂ xi (c.getD .All) (u.getD .Radiance) (m.getD true)) := by
    cases c <;> cases u <;> cases m <;> rfl
  have p₀ : pdf M ⟨.vec3 d₁ :: .vec3 d₂ :: defaulted c u m, []⟩
      = .ok (M.pdf d₁ d₂ (c.getD .All) (u.getD .Radiance) (m.getD true)) := rfl
  have p₁ : pdf M ⟨[.vec3 d₁, .vec3 d₂], optionals c u m⟩
      = .ok (M.pdf d₁ d₂ (c.getD .All) (u.getD .Radiance) (m.getD true)) := by
    cases c <;> cases u <;> cases m <;> rfl
  have p₂ : pdf M ⟨[], ("in", .vec3 d₁) :: ("out", .vec3 d₂) :: optionals c u m⟩
      = .ok (M.pdf d₁ d₂ (c.getD .All) (u.getD .Radiance) (m.getD true)) := by
    cases c <;> cases u <;> cases m <;> rfl
  have r₀ : reflectance M ⟨.vec3 d₂ :: defaulted c u m, []⟩
      = .ok (M.reflectance d₂ (c.getD .All) (u.getD .Radiance) (m.getD true)) := rfl
  have r₁ : reflectance M ⟨[.vec3 d₂], optionals c u m⟩
      = .ok (M.reflectance d₂ (c.getD .All) (u.getD .Radiance) (m.getD true)) := by
    cases c <;> cases u <;> cases m <;> rfl
  have r₂ : reflectance M ⟨[], ("out", .vec3 d₂) :: optionals c u m⟩
      = .ok (M.reflectance d₂ (c.getD .All) (u.getD .Radiance) (m.getD true)) := by
    cases c <;> cases u <;> cases m <;> rfl
  refine ⟨⟨?_, ?_, e₀⟩, ⟨?_, ?_, s₀⟩, ⟨?_, ?_, p₀⟩, ⟨?_, ?_, r₀⟩⟩
  · rw [e₀]; exact forward_perm h.symm e₁
  · intro all hall
    rw [e₀]; exact forward_perm (((h.cons _).cons _).symm.trans hall.symm) e₂
  · rw [s₀]; exact forward_perm h.symm s₁
  · intro all hall
    rw [s₀]; exact forward_perm (((h.cons _).cons _).symm.trans hall.symm) s₂
  · rw [p₀]; exact forward_perm h.symm p₁
  · intro all hall
    rw [p₀]; exact forward_perm (((h.cons _).cons _).symm.trans hall.symm) p₂
  · rw [r₀]; exact forward_perm h.symm r₁
  · intro all hall
    rw [r₀]; exact forward_perm ((h.cons _).symm.trans hall.symm) r₂

/-- Witness of C3, scenario S5: `sample(out=d2, xi=(0.5, 0.5), unit=Radiance)` returns what
`sample(d2, (0.5, 0.5), All, Radiance, true)` returns. -/
theorem facade_defaults_witness :
    sample Toy.impl ⟨[], [("out", .vec3 (0, 0, 1)), ("xi", .vec2 (1/2, 1/2)),
        ("unit", .unit .Radiance)]⟩
      = sample Toy.impl ⟨[.vec3 (0, 0, 1), .vec2 (1/2, 1/2), .flag .All, .unit .Radiance,
        .mask true], []⟩ :=
  (facade_defaults Toy.impl (0, 0, 1) (0, 0, 1) (1/2, 1/2) none (some .Radiance) none
    [("unit", .unit .Radiance)] (List.Perm.refl _)).2.1.2.1 _ (List.Perm.refl _)

theorem eval_args_typed :
    ∀ a ∈ (eval_args : List (arg Vec3d Vec2d)), ∀ d, a.dflt = some d → d.type = a.type := by
  intro a ha d hd
  simp only [eval_args, List.mem_cons, List.mem_singleton, List.not_mem_nil, or_false] at ha
  rcases ha with rfl | rfl | rfl | rfl | rfl <;> simp at hd <;> subst hd <;> rfl

theorem sample_args_typed :
    ∀ a ∈ (sample_args : List (arg Vec3d Vec2d)), ∀ d, a.dflt = some d → d.type = a.type := by
  intro a ha d hd
  simp only [sample_args, List.mem_cons, List.mem_singleton, List.not_mem_nil, or_false] at ha
  rcases ha with rfl | rfl | rfl | rfl | rfl <;> simp at hd <;> subst hd <;> rfl

theorem pdf_args_typed :
    ∀ a ∈ (pdf_args : List (arg Vec3d Vec2d)), ∀ d, a.dflt = some d → d.type = a.type := by
  intro a ha d hd
  simp only [pdf_args, List.mem_cons, List.mem_singleton, List.not_mem_nil, or_false] at ha
  rcases ha with rfl | rfl | rfl | rfl | rfl <;> simp at hd <;> subst hd <;> rfl

theorem reflectance_args_typed :
    ∀ a ∈ (reflectance_args : List (arg Vec3d Vec2d)), ∀ d,
      a.dflt = some d → d.type = a.type := by
  intro a ha d hd
  simp only [reflectance_args, List.mem_cons, List.mem_singleton, List.not_mem_nil,
    or_false] at ha
  rcases ha with rfl | rfl | rfl | rfl <;> simp at hd <;> subst hd <;> rfl

/-- C10: argument binding rejects unknown names.  For each of `eval`, `sample`, `pdf` and
`reflectance`, a call with a named argument whose name the operation does not declare is
rejected at binding with a diagnostic that quotes an undeclared name of the call, so no result
of the implementation is returned; conversely every well-formed call (each parameter supplied
at most once, each value of its parameter's type) that uses only declared names and supplies
all required arguments is accepted. -/
theorem facade_rejects_unknown_names
    (M : Implementation Vec3d Vec2d Spectrum BsdfSample Value) (call : Call Vec3d Vec2d) :
    ((∀ n ∈ call.named.map Prod.fst, n ∉ names (eval_args : List (arg Vec3d Vec2d)) →
        ∃ n', eval M call = .error (.unknownName n') ∧ n' ∈ call.named.map Prod.fst ∧
          n' ∉ names (eval_args : List (arg Vec3d Vec2d))) ∧
      (Admissible eval_args call → DeclaredOnly eval_args call →
        RequiredPresent eval_args call → ∃ r, eval M call = .ok r)) ∧
    ((∀ n ∈ call.named.map Prod.fst, n ∉ names (sample_args : List (arg Vec3d Vec2d)) →
        ∃ n', sample M call = .error (.unknownName n') ∧ n' ∈ call.named.map Prod.fst ∧
          n' ∉ names (sample_args : List (arg Vec3d Vec2d))) ∧
      (Admissible sample_args call → DeclaredOnly sample_args call →
        RequiredPresent sample_args call → ∃ r, sample M call = .ok r)) ∧
    ((∀ n ∈ call.named.map Prod.fst, n ∉ names (pdf_args : List (arg Vec3d Vec2d)) →
        ∃ n', pdf M call = .error (.unknownName n') ∧ n' ∈ call.named.map Prod.fst ∧
          n' ∉ names (pdf_args : List (arg Vec3d Vec2d))) ∧
      (Admissible pdf_args call → DeclaredOnly pdf_args call →
        RequiredPresent pdf_args call → ∃ r, pdf M call = .ok r)) ∧
    ((∀ n ∈ call.named.map Prod.fst, n ∉ names (reflectance_args : List (arg Vec3d Vec2d)) →
        ∃ n', reflectance M call = .error (.unknownName n') ∧ n' ∈ call.named.map Prod.fst ∧
          n' ∉ names (reflectance_args : List (arg Vec3d Vec2d))) ∧
      (Admissible reflectance_args call → DeclaredOnly reflectance_args call →
        RequiredPresent reflectance_args call → ∃ r, reflectance M call = .ok r)) := by
  refine ⟨⟨fun n hn hu => forward_unknown _ _ call n hn hu, fun wf hd hr => ?_⟩,
    ⟨fun n hn hu => forward_unknown _ _ call n hn hu, fun wf hd hr => ?_⟩,
    ⟨fun n hn hu => forward_unknown _ _ call n hn hu, fun wf hd hr => ?_⟩,
    ⟨fun n hn hu => forward_unknown _ _ call n hn hu, fun wf hd hr => ?_⟩⟩
  · obtain ⟨values, hb, hty⟩ := bind_complete eval_args_typed wf hd hr
    have hty' : values.map Val.type = [.Vec3d, .Vec3d, .BsdfFlag, .unit_t, .Mask] := by
      simpa [eval_args] using hty
    obtain ⟨r, ht⟩ := call_V3_V3_of_types M.eval hty'
    exact ⟨r, forward_ok_iff.2 ⟨values, hb, ht⟩⟩
  · obtain ⟨values, hb, hty⟩ := bind_complete sample_args_typed wf hd hr
    have hty' : values.map Val.type = [.Vec3d, .Vec2d, .BsdfFlag, .unit_t, .Mask] := by
      simpa [sample_args] using hty
    obtain ⟨r, ht⟩ := call_V3_V2_of_types M.sample hty'
    exact ⟨r, forward_ok_iff.2 ⟨values, hb, ht⟩⟩
  · obtain ⟨values, hb, hty⟩ := bind_complete pdf_args_typed wf hd hr
    have hty' : values.map Val.type = [.Vec3d, .Vec3d, .BsdfFlag, .unit_t, .Mask] := by
      simpa [pdf_args] using hty
    obtain ⟨r, ht⟩ := call_V3_V3_of_types M.pdf hty'
    exact ⟨r, forward_ok_iff.2 ⟨values, hb, ht⟩⟩
  · obtain ⟨values, hb, hty⟩ := bind_complete reflectance_args_typed wf hd hr
    have hty' : values.map Val.type = [.Vec3d, .BsdfFlag, .unit_t, .Mask] := by
      simpa [reflectance_args] using hty
    obtain ⟨r, ht⟩ := call_V3_of_types M.reflectance hty'
    exact ⟨r, forward_ok_iff.2 ⟨values, hb, ht⟩⟩

/-- Witness of C10, scenario S6: `pdf(in=d1, out=d2, widget=3)` is rejected with a diagnostic
that quotes `widget`, and `pdf(in=d1, out=d2)` is accepted. -/
theorem facade_rejects_unknown_names_witness :
    pdf Toy.impl ⟨[], [("in", .vec3 (0, 0, 1)), ("out", .vec3 (0, 1, 0)),
        ("widget", .flag .All)]⟩ = .error (.unknownName "widget") ∧
    (∃ n', pdf Toy.impl ⟨[], [("in", .vec3 (0, 0, 1)), ("out", .vec3 (0, 1, 0)),
        ("widget", .flag .All)]⟩ = .error (.unknownName n') ∧
      n' ∈ ["in", "out", "widget"] ∧ n' ∉ names (pdf_args : List (arg Toy.Vec3d Toy.Vec2d))) ∧
    ∃ r, pdf Toy.impl ⟨[], [("in", .vec3 (0, 0, 1)), ("out", .vec3 (0, 1, 0))]⟩ = .ok r :=
  ⟨rfl,
    (facade_rejects_unknown_names Toy.impl
      ⟨[], [("in", .vec3 (0, 0, 1)), ("out", .vec3 (0, 1, 0)), ("widget", .flag .All)]⟩).2.2.1.1
      "widget" (by simp) (by simp [names, pdf_args]),
    (facade_rejects_unknown_names Toy.impl
      ⟨[], [("in", .vec3 (0, 0, 1)), ("out", .vec3 (0, 1, 0))]⟩).2.2.1.2
      { arity := by simp [pdf_args]
        once := by simp
        notTwice := by simp
        positionalTyped := by simp
        namedTyped := by
          intro a ha v hv
          simp only [pdf_args, List.mem_cons, List.mem_singleton, List.not_mem_nil,
            or_false] at ha
          rcases ha with rfl | rfl | rfl | rfl | rfl <;> simp at hv <;> subst hv <;> rfl }
      (by simp [DeclaredOnly, names, pdf_args])
      (by simp [RequiredPresent, pdf_args])⟩

/-- C6: the four signatures are `eval(in, out, component, unit, mask)`,
`sample(out, xi, component, unit, mask)`, `pdf(in, out, component, unit, mask)` and
`reflectance(out, component, unit, mask)`, in that positional order; the required parameters
carry no default, and the optional tail of all four is the same three parameters, with the same
types, names, order and defaults `component = All`, `unit = Radiance`, `mask = true`. -/
theorem facade_signatures :
    names (eval_args : List (arg Vec3d Vec2d)) = ["in", "out", "component", "unit", "mask"] ∧
    names (sample_args : List (arg Vec3d Vec2d)) = ["out", "xi", "component", "unit", "mask"] ∧
    names (pdf_args : List (arg Vec3d Vec2d)) = ["in", "out", "component", "unit", "mask"] ∧
    names (reflectance_args : List (arg Vec3d Vec2d)) = ["out", "component", "unit", "mask"] ∧
    ((eval_args : List (arg Vec3d Vec2d)).take 2).map arg.dflt = [none, none] ∧
    ((sample_args : List (arg Vec3d Vec2d)).take 2).map arg.dflt = [none, none] ∧
    ((pdf_args : List (arg Vec3d Vec2d)).take 2).map arg.dflt = [none, none] ∧
    ((reflectance_args : List (arg Vec3d Vec2d)).take 1).map arg.dflt = [none] ∧
    (eval_args : List (arg Vec3d Vec2d)).drop 2 =
      [⟨.BsdfFlag, "component", some (.flag .All)⟩, ⟨.unit_t, "unit", some (.unit .Radiance)⟩,
        ⟨.Mask, "mask", some (.mask true)⟩] ∧
    (sample_args : List (arg Vec3d Vec2d)).drop 2 = (eval_args : List (arg Vec3d Vec2d)).drop 2 ∧
    (pdf_args : List (arg Vec3d Vec2d)).drop 2 = (eval_args : List (arg Vec3d Vec2d)).drop 2 ∧
    (reflectance_args : List (arg Vec3d Vec2d)).drop 1
      = (eval_args : List (arg Vec3d Vec2d)).drop 2 :=
  ⟨rfl, rfl, rfl, rfl, rfl, rfl, rfl, rfl, rfl, rfl, rfl, rfl⟩

/-- C7: the three named default constants are fixed: `DefBsdfAll` resolves to `bsdf_flag::All`,
`DefUnitRad` to `unit_t::Radiance` and `DefTrue` to `true`.  They are closed constants, the same
in the descriptors of all four operations, and the value every call that omits the optional
arguments passes on, whatever the implementation, the arguments and the operation. -/
theorem default_constants (M : Implementation Vec3d Vec2d Spectrum BsdfSample Value)
    (d₁ d₂ : Vec3d) (xi : Vec2d) :
    detail.DefBsdfAll.value = bsdf_flag.All ∧
    detail.DefUnitRad.value = unit_t.Radiance ∧
    detail.DefTrue.value = true ∧
    (∀ args ∈ [(eval_args : List (arg Vec3d Vec2d)), sample_args, pdf_args, reflectance_args],
      ∀ a ∈ args,
        (a.name = "component" → a.dflt = some (.flag .All)) ∧
        (a.name = "unit" → a.dflt = some (.unit .Radiance)) ∧
        (a.name = "mask" → a.dflt = some (.mask true))) ∧
    eval M ⟨[.vec3 d₁, .vec3 d₂], []⟩ = .ok (M.eval d₁ d₂ detail.DefBsdfAll.value
      detail.DefUnitRad.value detail.DefTrue.value) ∧
    sample M ⟨[.vec3 d₂, .vec2 xi], []⟩ = .ok (M.sample d₂ xi detail.DefBsdfAll.value
      detail.DefUnitRad.value detail.DefTrue.value) ∧
    pdf M ⟨[.vec3 d₁, .vec3 d₂], []⟩ = .ok (M.pdf d₁ d₂ detail.DefBsdfAll.value
      detail.DefUnitRad.value detail.DefTrue.value) ∧
    reflectance M ⟨[.vec3 d₂], []⟩ = .ok (M.reflectance d₂ detail.DefBsdfAll.value
      detail.DefUnitRad.value detail.DefTrue.value) := by
  refine ⟨rfl, rfl, rfl, ?_, rfl, rfl, rfl, rfl⟩
  intro args hargs a ha
  simp only [List.mem_cons, List.mem_singleton, List.not_mem_nil, or_false] at hargs
  rcases hargs with rfl | rfl | rfl | rfl
  · simp only [eval_args, List.mem_cons, List.mem_singleton, List.not_mem_nil, or_false] at ha
    rcases ha with rfl | rfl | rfl | rfl | rfl <;> simp [detail.DefBsdfAll, detail.DefUnitRad,
      detail.DefTrue]
  · simp only [sample_args, List.mem_cons, List.mem_singleton, List.not_mem_nil, or_false] at ha
    rcases ha with rfl | rfl | rfl | rfl | rfl <;> simp [detail.DefBsdfAll, detail.DefUnitRad,
      detail.DefTrue]
  · simp only [pdf_args, List.mem_cons, List.mem_singleton, List.not_mem_nil, or_false] at ha
    rcases ha with rfl | rfl | rfl | rfl | rfl <;> simp [detail.DefBsdfAll, detail.DefUnitRad,
      detail.DefTrue]
  · simp only [reflectance_args, List.mem_cons, List.mem_singleton, List.not_mem_nil,
      or_false] at ha
    rcases ha with rfl | rfl | rfl | rfl <;> simp [detail.DefBsdfAll, detail.DefUnitRad,
      detail.DefTrue]

end FacadeTheorems

end bbm
